import Mathlib

/-!
Shallow embedding of the OpenMindWell real-time chat core:
  * `backend/src/services/crisisDetection.ts` (risk classifier), and
  * the WebSocket chat server (`ChatServer`): room registry, broadcast
    router, join/leave/chat/disconnect handlers and the heartbeat.

External effects are made explicit: the HuggingFace emotion call is an
oracle parameter (`HFOutcome`), storage writes/reads take an explicit
failure flag, timestamps are abstracted away (no claim concerns them),
and JavaScript `Map`s become association lists with JS `Map.set`
(replace-in-place) semantics.  Emotion scores and confidences are `Rat`
(the source uses IEEE doubles only for comparisons against the literals
0.5/0.6/0.7, which are exact here).
-/

namespace OMW

/-- Risk levels, exactly the string union
`'none' | 'low' | 'medium' | 'high' | 'critical'` of the source. -/
inductive RiskLevel where
  | none
  | low
  | medium
  | high
  | critical
deriving DecidableEq, Repr

/-- `RISK_LEVELS = ['none', 'low', 'medium', 'high', 'critical']`. -/
def RISK_LEVELS : List RiskLevel :=
  [RiskLevel.none, RiskLevel.low, RiskLevel.medium, RiskLevel.high, RiskLevel.critical]

/-- `RISK_LEVELS.indexOf(r)` (every level occurs, so the JS `-1` case is dead). -/
def riskIndex (r : RiskLevel) : Nat := RISK_LEVELS.indexOf r

/-- JS `String.prototype.toLowerCase` on the character list of a string. -/
def lowerStr (s : List Char) : List Char := s.map Char.toLower

/-- `needle` matches `hay` starting at its head. -/
def matchesAt : List Char → List Char → Bool
  | [], _ => true
  | _ :: _, [] => false
  | a :: as, b :: bs => a == b && matchesAt as bs

/-- JS `hay.includes(needle)`: substring containment. -/
def containsSub (needle : List Char) : List Char → Bool
  | [] => matchesAt needle []
  | c :: rest => matchesAt needle (c :: rest) || containsSub needle rest

/-- The `CRISIS_KEYWORDS` object, keyed by severity.  The source object has
only the four keys `critical/high/medium/low`; `none` maps to no phrases. -/
def CRISIS_KEYWORDS : RiskLevel → List String
  | RiskLevel.critical =>
      ["suicide", "kill myself", "end my life", "want to die",
       "better off dead", "no reason to live", "goodbye world", "final goodbye"]
  | RiskLevel.high =>
      ["self harm", "cut myself", "hurt myself", "overdose",
       "jump off", "hang myself", "planning to", "going to hurt"]
  | RiskLevel.medium =>
      ["hopeless", "worthless", "cant go on", "no point",
       "give up", "ending it", "rather be dead", "disappear forever"]
  | RiskLevel.low =>
      ["depressed", "anxious", "scared", "alone",
       "struggling", "hard time", "overwhelming", "cant cope"]
  | RiskLevel.none => []

/-- `const levels = ['critical', 'high', 'medium', 'low']`. -/
def keywordScanLevels : List RiskLevel :=
  [RiskLevel.critical, RiskLevel.high, RiskLevel.medium, RiskLevel.low]

/-- The classifier verdict (`CrisisDetectionResult`). -/
structure CrisisDetectionResult where
  isCrisis : Bool
  riskLevel : RiskLevel
  detectedEmotions : Option (List String)
  triggeredKeywords : Option (List String)
  confidence : Rat
deriving DecidableEq, Repr

/-- Innermost body of the keyword scan (`for (const keyword of keywords)`):
accumulator is `(triggeredKeywords, highestRiskLevel)`. -/
def kwInner (lowerMessage : List Char) (level : RiskLevel)
    (acc : List String × RiskLevel) (keyword : String) : List String × RiskLevel :=
  if containsSub keyword.toList lowerMessage then
    (acc.1 ++ [keyword],
     if riskIndex level > riskIndex acc.2 then level else acc.2)
  else acc

/-- One severity bucket of the scan (`for (const level of levels)`). -/
def kwStep (lowerMessage : List Char) (acc : List String × RiskLevel)
    (level : RiskLevel) : List String × RiskLevel :=
  (CRISIS_KEYWORDS level).foldl (kwInner lowerMessage level) acc

/-- `analyzeWithKeywords(message)`: lower-case the text, scan the four phrase
lists from `critical` down to `low`, record every match in scan order, keep the
highest matched severity. -/
def analyzeWithKeywords (message : String) : CrisisDetectionResult :=
  let lowerMessage := lowerStr message.toList
  let scan := keywordScanLevels.foldl (kwStep lowerMessage) ([], RiskLevel.none)
  { isCrisis := scan.2 != RiskLevel.none
    riskLevel := scan.2
    detectedEmotions := Option.none
    triggeredKeywords := some scan.1
    confidence := if scan.1.length > 0 then (7 : Rat)/10 else 0 }

/-- One `(label, score)` row of the emotion model output. -/
structure EmotionScore where
  label : String
  score : Rat
deriving DecidableEq, Repr

def HIGH_RISK_EMOTIONS : List String := ["sadness", "fear", "anger"]

def MEDIUM_RISK_EMOTIONS : List String := ["disgust", "surprise"]

/-- Loop body of `detectCrisis`'s emotion pass: accumulator is
`(riskLevel, maxScore)`; `maxScore` is updated for every emotion before the
risk branches, exactly as in the source. -/
def emoStep (acc : RiskLevel × Rat) (emotion : EmotionScore) : RiskLevel × Rat :=
  let maxScore := if emotion.score > acc.2 then emotion.score else acc.2
  if HIGH_RISK_EMOTIONS.contains emotion.label ∧ emotion.score > 1/2 then
    let potentialRisk := if emotion.score > 7/10 then RiskLevel.high else RiskLevel.medium
    (if riskIndex potentialRisk > riskIndex acc.1 then potentialRisk else acc.1, maxScore)
  else if MEDIUM_RISK_EMOTIONS.contains emotion.label ∧ emotion.score > 3/5 then
    (if acc.1 = RiskLevel.none then RiskLevel.low else acc.1, maxScore)
  else
    (acc.1, maxScore)

/-- `detectCrisis(message)` with the emotion-service reply made explicit:
`emotions` is what `analyzeWithHuggingFace` returned (`null` becomes `none`).
If a non-empty emotion list was obtained, derive a risk level from the scores,
merge with the keyword result by taking the higher level; otherwise the result
is exactly the keyword analysis. -/
def detectCrisis (emotions : Option (List EmotionScore)) (message : String) :
    CrisisDetectionResult :=
  match emotions with
  | some es =>
    if es.length > 0 then
      let detectedEmotions := es.map (fun e => e.label)
      let pass := es.foldl emoStep (RiskLevel.none, 0)
      let keywordResult := analyzeWithKeywords message
      let riskLevel :=
        if riskIndex keywordResult.riskLevel > riskIndex pass.1 then
          keywordResult.riskLevel
        else pass.1
      { isCrisis := riskLevel != RiskLevel.none
        riskLevel := riskLevel
        detectedEmotions := some detectedEmotions
        triggeredKeywords := keywordResult.triggeredKeywords
        confidence := pass.2 }
    else analyzeWithKeywords message
  | Option.none => analyzeWithKeywords message

/-- Possible outcomes of the HTTP call inside `analyzeWithHuggingFace`. -/
inductive HFOutcome where
  | noToken
  | fetchError
  | badStatus
  | jsonResult (rows : List (List EmotionScore))
deriving DecidableEq, Repr

/-- `analyzeWithHuggingFace(message)`: no token, a thrown fetch error, and a
non-OK status all yield `null`; a parsed body yields `result[0] || null`
(an empty body array gives `null`; an empty first row is truthy in JS and is
returned as-is). -/
def analyzeWithHuggingFace (outcome : HFOutcome) : Option (List EmotionScore) :=
  match outcome with
  | HFOutcome.noToken => Option.none
  | HFOutcome.fetchError => Option.none
  | HFOutcome.badStatus => Option.none
  | HFOutcome.jsonResult rows => rows.head?

/-- The full pipeline: the external call followed by `detectCrisis`. -/
def detectCrisisFull (outcome : HFOutcome) (message : String) : CrisisDetectionResult :=
  detectCrisis (analyzeWithHuggingFace outcome) message

/-- Shared header of `getCrisisResourcesMessage` (`baseMessage`). -/
def baseMessage : String :=
  "🆘 **Crisis Resources** 🆘\n\n" ++
  "**If you are in immediate danger, please call emergency services (911/112/999).**\n\n"

/-- Shared hotline list (`resources`). -/
def resources : String :=
  "**24/7 Crisis Hotlines:**\n" ++
  "• US: Call/Text **988** (Suicide & Crisis Lifeline)\n" ++
  "• US: Text **HOME** to **741741** (Crisis Text Line)\n" ++
  "• International: **findahelpline.com**\n\n" ++
  "**You are not alone. Help is available.**"

/-- The urgent tier returned for `critical`/`high`. -/
def urgentTierMessage : String :=
  baseMessage ++
  "⚠️ **This message may indicate a mental health crisis.** ⚠️\n\n" ++
  "Please reach out to a crisis professional immediately:\n\n" ++
  resources

/-- The supportive tier returned for `medium`. -/
def supportiveTierMessage : String :=
  baseMessage ++
  "If you\x27re struggling, consider reaching out:\n\n" ++
  resources

/-- The general-support tier returned otherwise (i.e. for `low`). -/
def generalTierMessage : String :=
  "💙 **Support Resources** 💙\n\n" ++
  "If you need support, here are some resources:\n\n" ++
  resources

/-- `getCrisisResourcesMessage(riskLevel)`. -/
def getCrisisResourcesMessage (riskLevel : RiskLevel) : String :=
  if riskLevel = RiskLevel.critical ∨ riskLevel = RiskLevel.high then
    urgentTierMessage
  else if riskLevel = RiskLevel.medium then
    supportiveTierMessage
  else
    generalTierMessage

/-! ## Chat server (`ChatServer`)

Connections are identified by a `Nat` handle (each `ws` object is a distinct
handle).  The ad-hoc mutable fields the source attaches to `ws`
(`isAlive`, `roomId`, `userId`, `nickname`) and its `readyState` live in a
per-connection side table `conns`; `rooms` is the nested
`Map<roomId, Map<userId, RoomMember>>`; `db` is the `messages` table in
insertion (chronological) order. -/

/-- JS `Map.get`: the (unique) binding of the key. -/
def mapGet {α β : Type} [BEq α] : List (α × β) → α → Option β
  | [], _ => Option.none
  | e :: rest, k => if e.1 == k then some e.2 else mapGet rest k

/-- JS `Map.set`: replace in place when the key exists, else append. -/
def mapSet {α β : Type} [BEq α] : List (α × β) → α → β → List (α × β)
  | [], k, v => [(k, v)]
  | e :: rest, k, v =>
    if e.1 == k then (k, v) :: rest else e :: mapSet rest k v

/-- JS `Map.has`. -/
def mapHas {α β : Type} [BEq α] (m : List (α × β)) (k : α) : Bool :=
  m.any (fun e => e.1 == k)

/-- JS `Map.delete`: remove the binding of the key (a `Map` holds at most
one binding per key). -/
def mapDelete {α β : Type} [BEq α] (m : List (α × β)) (k : α) : List (α × β) :=
  m.filter (fun e => !(e.1 == k))

/-- JS truthiness of an optional string field: `undefined` and `""` are falsy. -/
def truthy : Option String → Bool
  | Option.none => false
  | some s => s != ""

/-- JS `a || b` on optional string values. -/
def jsOrStr (a b : Option String) : Option String :=
  if truthy a then a else b

/-- The `RoomMember` record `{ ws, userId, nickname }`. -/
structure RoomMember where
  wsId : Nat
  userId : String
  nickname : String
deriving DecidableEq, Repr

/-- One room: `Map<userId, RoomMember>`. -/
abbrev RoomMap := List (String × RoomMember)

/-- `rooms : Map<roomId, Map<userId, RoomMember>>`. -/
abbrev RoomsMap := List (String × RoomMap)

/-- A persisted row of the `messages` table (`created_at` is the list
position in `db`; the column itself is abstracted away). -/
structure StoredMsg where
  room_id : String
  user_id : String
  nickname : Option String
  content : String
  risk_level : RiskLevel
deriving DecidableEq, Repr

/-- Per-connection state: `readyState === OPEN`, the heartbeat `isAlive`
flag, and the ad-hoc `(ws as any).roomId/userId/nickname` fields. -/
structure ConnMeta where
  isOpen : Bool
  isAlive : Bool
  roomId : Option String
  userId : Option String
  nickname : Option String
deriving DecidableEq, Repr

/-- An untracked handle: no attached fields, not open. -/
def defaultMeta : ConnMeta :=
  { isOpen := false, isAlive := false,
    roomId := Option.none, userId := Option.none, nickname := Option.none }

/-- Whole-server state. -/
structure ServerState where
  rooms : RoomsMap
  conns : List (Nat × ConnMeta)
  db : List StoredMsg
deriving DecidableEq, Repr

def getMeta (st : ServerState) (wsId : Nat) : ConnMeta :=
  (mapGet st.conns wsId).getD defaultMeta

def connIsOpen (st : ServerState) (wsId : Nat) : Bool :=
  (getMeta st wsId).isOpen

/-- Outbound frames (timestamps abstracted away). -/
inductive OutFrame where
  | history (messages : List StoredMsg)
  | errorMsg (message : String)
  | joinEvt (userId nickname : String)
  | leaveEvt (userId : String) (nickname : Option String)
  | chatEvt (userId : String) (nickname : Option String) (content : String)
      (riskLevel : RiskLevel)
  | crisisAlert (riskLevel : RiskLevel) (message : String)
deriving DecidableEq, Repr

/-- One `ws.send` performed by the server: target handle and frame. -/
structure Send where
  target : Nat
  frame : OutFrame
deriving DecidableEq, Repr

def isChatFrame : OutFrame → Bool
  | OutFrame.chatEvt _ _ _ _ => true
  | _ => false

def isLeaveFrame : OutFrame → Bool
  | OutFrame.leaveEvt _ _ => true
  | _ => false

def isJoinFrame : OutFrame → Bool
  | OutFrame.joinEvt _ _ => true
  | _ => false

def isHistoryFrame : OutFrame → Bool
  | OutFrame.history _ => true
  | _ => false

def isAlertFrame : OutFrame → Bool
  | OutFrame.crisisAlert _ _ => true
  | _ => false

/-- `broadcastToRoom(roomId, message)`: look the room up (`absent → return`),
send the serialized frame to every member whose `readyState === OPEN`,
silently skipping the rest. -/
def broadcastToRoom (st : ServerState) (roomId : String) (frame : OutFrame) :
    List Send :=
  match mapGet st.rooms roomId with
  | Option.none => []
  | some room =>
    room.filterMap (fun e =>
      if connIsOpen st e.2.wsId then some { target := e.2.wsId, frame := frame }
      else Option.none)

/-- `handleJoin(ws, message)`.  `fetchFail` is the storage collaborator's
outcome for the history read (`error` non-null).  On truthy
`roomId/userId/nickname`: register the member (replacing any previous
membership of that `userId`), attach the binding to the connection, send
either the history reply (most recent 50 rows, reversed back to
oldest-first) or a non-fatal error notice, then broadcast the join event. -/
def handleJoin (st : ServerState) (wsId : Nat)
    (roomId userId nickname : Option String) (fetchFail : Bool) :
    ServerState × List Send :=
  if truthy roomId && truthy userId && truthy nickname then
    let r := roomId.getD ""
    let u := userId.getD ""
    let n := nickname.getD ""
    let room0 := (mapGet st.rooms r).getD []
    let room1 := mapSet room0 u { wsId := wsId, userId := u, nickname := n }
    let m := getMeta st wsId
    let st1 : ServerState :=
      { st with
        rooms := mapSet st.rooms r room1
        conns := mapSet st.conns wsId
          { m with roomId := some r, userId := some u, nickname := some n } }
    let roomMsgs := st.db.filter (fun msg => msg.room_id == r)
    let firstSend : Send :=
      if fetchFail then
        { target := wsId, frame := OutFrame.errorMsg "Could not load message history" }
      else
        { target := wsId, frame := OutFrame.history ((roomMsgs.reverse.take 50).reverse) }
    (st1, firstSend :: broadcastToRoom st1 r (OutFrame.joinEvt u n))
  else
    (st, [{ target := wsId, frame := OutFrame.errorMsg "Missing required fields" }])

/-- `handleLeave(ws, message)`: reads the binding from the connection (the
frame body is ignored); if bound and the membership exists, delete it and
broadcast the leave event.  The connection's stored binding is NOT cleared. -/
def handleLeave (st : ServerState) (wsId : Nat) : ServerState × List Send :=
  let m := getMeta st wsId
  if truthy m.roomId && truthy m.userId then
    let r := m.roomId.getD ""
    let u := m.userId.getD ""
    match mapGet st.rooms r with
    | some room =>
      if mapHas room u then
        let st1 : ServerState := { st with rooms := mapSet st.rooms r (mapDelete room u) }
        (st1, broadcastToRoom st1 r (OutFrame.leaveEvt u m.nickname))
      else (st, [])
    | Option.none => (st, [])
  else (st, [])

/-- `handleChatMessage(ws, message)`.  `emotions` is the HuggingFace reply
(`analyzeWithHuggingFace`'s value) and `dbFail` the storage collaborator's
outcome for the insert.  Classify, persist, broadcast the chat event (on
successful persistence only), then send the private crisis alert when the
verdict is a crisis. -/
def handleChatMessage (st : ServerState) (wsId : Nat) (content : Option String)
    (emotions : Option (List EmotionScore)) (dbFail : Bool) :
    ServerState × List Send :=
  let m := getMeta st wsId
  if truthy content && truthy m.roomId && truthy m.userId then
    let c := content.getD ""
    let r := m.roomId.getD ""
    let u := m.userId.getD ""
    let crisisResult := detectCrisis emotions c
    if dbFail then
      (st, [{ target := wsId, frame := OutFrame.errorMsg "Failed to save message" }])
    else
      let savedMessage : StoredMsg :=
        { room_id := r, user_id := u, nickname := m.nickname, content := c,
          risk_level := crisisResult.riskLevel }
      let st1 : ServerState := { st with db := st.db ++ [savedMessage] }
      let evt := OutFrame.chatEvt savedMessage.user_id
        (jsOrStr savedMessage.nickname m.nickname) savedMessage.content
        savedMessage.risk_level
      let alerts : List Send :=
        if crisisResult.isCrisis && crisisResult.riskLevel != RiskLevel.none then
          [{ target := wsId,
             frame := OutFrame.crisisAlert crisisResult.riskLevel
               (getCrisisResourcesMessage crisisResult.riskLevel) }]
        else []
      (st1, broadcastToRoom st1 r evt ++ alerts)
  else
    (st, [{ target := wsId, frame := OutFrame.errorMsg "Missing required fields" }])

/-- `handleDisconnect(ws)`: if the connection carries a truthy binding and the
room still maps its `userId` to this very socket, delete the membership;
otherwise leave everything untouched.  Nothing is sent. -/
def handleDisconnect (st : ServerState) (wsId : Nat) : ServerState :=
  let m := getMeta st wsId
  if truthy m.roomId && truthy m.userId then
    let r := m.roomId.getD ""
    let u := m.userId.getD ""
    match mapGet st.rooms r with
    | some room =>
      match mapGet room u with
      | some member =>
        if member.wsId = wsId then
          { st with rooms := mapSet st.rooms r (mapDelete room u) }
        else st
      | Option.none => st
    | Option.none => st
  else st

/-- Transport close: `readyState` leaves `OPEN`. -/
def markClosed (st : ServerState) (wsId : Nat) : ServerState :=
  { st with conns := mapSet st.conns wsId { getMeta st wsId with isOpen := false } }

/-- A connection close (client-initiated `close` event or `ws.terminate()`):
the socket is no longer open and the registered `close` handler —
`handleDisconnect` — runs.  No frame is sent on this path. -/
def closeConn (st : ServerState) (wsId : Nat) : ServerState × List Send :=
  (handleDisconnect (markClosed st wsId) wsId, [])

/-- One heartbeat probe of one tracked connection (the `setInterval` body):
a connection that did not answer the previous probe is terminated (same
cleanup as a close); otherwise its flag is reset and it is pinged. -/
def heartbeatProbe (st : ServerState) (wsId : Nat) : ServerState × List Send :=
  let m := getMeta st wsId
  if m.isAlive = false then
    closeConn st wsId
  else
    ({ st with conns := mapSet st.conns wsId { m with isAlive := false } }, [])

/-- Registry well-formedness: room ids are distinct and each room has at most
one membership per `userId` (automatic for JS `Map`s, explicit here). -/
def roomsInv (rooms : RoomsMap) : Prop :=
  (rooms.map Prod.fst).Nodup ∧ ∀ p ∈ rooms, (p.2.map Prod.fst).Nodup

instance (rooms : RoomsMap) : Decidable (roomsInv rooms) := by
  unfold roomsInv; infer_instance

/-! ## Concrete states used by witnesses and counterexamples -/

/-- Two open, alive members `u`/`v` of room `"r"` on sockets 1 and 2. -/
def stPair : ServerState :=
  { rooms := [("r", [("u", ⟨1, "u", "alice"⟩), ("v", ⟨2, "v", "bob"⟩)])]
    conns := [(1, ⟨true, true, some "r", some "u", some "alice"⟩),
              (2, ⟨true, true, some "r", some "v", some "bob"⟩)]
    db := [] }

/-- A single fresh, open, alive, unbound connection (socket 1). -/
def stOne : ServerState :=
  { rooms := []
    conns := [(1, ⟨true, true, Option.none, Option.none, Option.none⟩)]
    db := [] }

/-- Socket 1 joins room `"A"` as `u`, then—without leaving—joins room `"B"`
as the same `u` on the same socket. -/
def stCross : ServerState :=
  (handleJoin (handleJoin stOne 1 (some "A") (some "u") (some "n") false).1
    1 (some "B") (some "u") (some "n") false).1

/-- `stPair` with socket 1 marked dead by the previous heartbeat probe. -/
def stPairDead : ServerState :=
  { rooms := [("r", [("u", ⟨1, "u", "alice"⟩), ("v", ⟨2, "v", "bob"⟩)])]
    conns := [(1, ⟨true, false, some "r", some "u", some "alice"⟩),
              (2, ⟨true, true, some "r", some "v", some "bob"⟩)]
    db := [] }

/-- Socket 1 carries a stale binding to `("r", "u")`, but the registry's
membership for `("r", "u")` is already held by the newer socket 2. -/
def stStale : ServerState :=
  { rooms := [("r", [("u", ⟨2, "u", "alice"⟩)])]
    conns := [(1, ⟨true, true, some "r", some "u", some "alice"⟩),
              (2, ⟨true, true, some "r", some "u", some "alice"⟩)]
    db := [] }

/-- A fresh connection plus a storage backlog: two persisted messages for
room `"r"` around one for room `"q"`. -/
def stDb : ServerState :=
  { rooms := []
    conns := [(1, ⟨true, true, Option.none, Option.none, Option.none⟩)]
    db := [⟨"r", "v", some "bob", "m1", RiskLevel.none⟩,
           ⟨"q", "w", Option.none, "x", RiskLevel.low⟩,
           ⟨"r", "v", some "bob", "m2", RiskLevel.none⟩] }

/-! ## Helper lemmas -/

theorem truthy_some_of_ne {s : String} (h : s ≠ "") : truthy (some s) = true := by
  simp [truthy, h]

theorem mapGet_mapSet_self {α β : Type} [BEq α] [LawfulBEq α]
    (l : List (α × β)) (k : α) (v : β) : mapGet (mapSet l k v) k = some v := by
  induction l with
  | nil => simp [mapSet, mapGet]
  | cons e rest ih =>
    by_cases h : e.1 == k
    · simp [mapSet, h, mapGet]
    · simp [mapSet, h, mapGet, ih]

theorem mapGet_mapDelete_self {α β : Type} [BEq α]
    (l : List (α × β)) (k : α) : mapGet (mapDelete l k) k = Option.none := by
  induction l with
  | nil => simp [mapDelete, mapGet]
  | cons e rest ih =>
    by_cases h : e.1 == k
    · simpa [mapDelete, h] using ih
    · simpa [mapDelete, mapGet, h] using ih

theorem mem_mapSet {α β : Type} [BEq α] {l : List (α × β)} {k : α} {v : β}
    {p : α × β} (hp : p ∈ mapSet l k v) : p = (k, v) ∨ p ∈ l := by
  induction l with
  | nil => simpa [mapSet] using hp
  | cons e rest ih =>
    by_cases h : e.1 == k
    · simp [mapSet, h] at hp
      rcases hp with hp | hp
      · exact Or.inl (by simp [hp])
      · exact Or.inr (List.mem_cons_of_mem _ hp)
    · simp [mapSet, h] at hp
      rcases hp with hp | hp
      · exact Or.inr (by simp [hp])
      · rcases ih hp with h1 | h1
        · exact Or.inl h1
        · exact Or.inr (List.mem_cons_of_mem _ h1)

theorem keys_mem_mapSet {α β : Type} [BEq α] {l : List (α × β)} {k : α} {v : β}
    {x : α} (hx : x ∈ (mapSet l k v).map Prod.fst) :
    x ∈ l.map Prod.fst ∨ x = k := by
  simp only [List.mem_map] at hx
  obtain ⟨p, hp, hx⟩ := hx
  rcases mem_mapSet hp with h | h
  · right; rw [← hx, h]
  · left; exact List.mem_map.mpr ⟨p, h, hx⟩

theorem nodup_keys_mapSet {α β : Type} [BEq α] [LawfulBEq α]
    (l : List (α × β)) (k : α) (v : β) (h : (l.map Prod.fst).Nodup) :
    ((mapSet l k v).map Prod.fst).Nodup := by
  induction l with
  | nil => simp [mapSet]
  | cons e rest ih =>
    simp only [List.map_cons, List.nodup_cons] at h
    by_cases hk : e.1 == k
    · have hek : e.1 = k := eq_of_beq hk
      simp only [mapSet, hk, if_pos, List.map_cons, List.nodup_cons]
      exact ⟨hek ▸ h.1, h.2⟩
    · simp only [mapSet, hk, if_neg, Bool.false_eq_true, not_false_iff,
        List.map_cons, List.nodup_cons]
      refine ⟨fun hx => ?_, ih h.2⟩
      rcases keys_mem_mapSet hx with h1 | h1
      · exact h.1 h1
      · exact hk (by rw [h1]; exact beq_self_eq_true k)

theorem countP_key_zero_of_not_mem {α β : Type} [BEq α] [LawfulBEq α]
    (l : List (α × β)) (k : α) (h : k ∉ l.map Prod.fst) :
    l.countP (fun e => e.1 == k) = 0 := by
  induction l with
  | nil => simp
  | cons e rest ih =>
    simp only [List.map_cons, List.mem_cons, not_or] at h
    have he : (e.1 == k) = false := by
      rcases h with ⟨h1, _⟩
      exact beq_eq_false_iff_ne.mpr (fun hx => h1 hx.symm)
    simp [List.countP_cons, he, ih h.2]

theorem countP_key_mapSet_one {α β : Type} [BEq α] [LawfulBEq α]
    (l : List (α × β)) (k : α) (v : β) (h : (l.map Prod.fst).Nodup) :
    (mapSet l k v).countP (fun e => e.1 == k) = 1 := by
  induction l with
  | nil => simp [mapSet, List.countP_cons]
  | cons e rest ih =>
    simp only [List.map_cons, List.nodup_cons] at h
    by_cases hk : e.1 == k
    · have hek : e.1 = k := eq_of_beq hk
      have : rest.countP (fun e => e.1 == k) = 0 :=
        countP_key_zero_of_not_mem rest k (hek ▸ h.1)
      simp [mapSet, hk, List.countP_cons, this]
    · simp [mapSet, hk, List.countP_cons, ih h.2]

theorem mapGet_eq_some_mem {α β : Type} [BEq α] {l : List (α × β)} {k : α}
    {v : β} (h : mapGet l k = some v) : ∃ e ∈ l, e.2 = v := by
  induction l with
  | nil => simp [mapGet] at h
  | cons e rest ih =>
    by_cases hk : e.1 == k
    · simp [mapGet, hk] at h
      exact ⟨e, List.mem_cons_self e rest, h⟩
    · simp [mapGet, hk] at h
      obtain ⟨e2, he2, hv⟩ := ih h
      exact ⟨e2, List.mem_cons_of_mem _ he2, hv⟩

/-- Every frame fanned out by the router is the one given to it. -/
theorem broadcast_sends_frame (st : ServerState) (roomId : String)
    (frame : OutFrame) : ∀ s ∈ broadcastToRoom st roomId frame, s.frame = frame := by
  intro s hs
  unfold broadcastToRoom at hs
  cases hm : mapGet st.rooms roomId with
  | none => rw [hm] at hs; simp at hs
  | some room =>
    rw [hm] at hs
    obtain ⟨e, _, he⟩ := List.mem_filterMap.mp hs
    by_cases ho : connIsOpen st e.2.wsId
    · simp [ho] at he; rw [← he]
    · simp [ho] at he

theorem countP_broadcast_zero (st : ServerState) (roomId : String)
    (frame : OutFrame) (p : OutFrame → Bool) (hp : p frame = false) :
    (broadcastToRoom st roomId frame).countP (fun s => p s.frame) = 0 := by
  rw [List.countP_eq_zero]
  intro s hs
  rw [broadcast_sends_frame st roomId frame s hs, hp]
  simp

theorem filter_broadcast_all (st : ServerState) (roomId : String)
    (frame : OutFrame) (p : OutFrame → Bool) (hp : p frame = true) :
    (broadcastToRoom st roomId frame).filter (fun s => p s.frame)
      = broadcastToRoom st roomId frame := by
  rw [List.filter_eq_self]
  intro s hs
  rw [broadcast_sends_frame st roomId frame s hs, hp]

theorem filter_broadcast_none (st : ServerState) (roomId : String)
    (frame : OutFrame) (p : OutFrame → Bool) (hp : p frame = false) :
    (broadcastToRoom st roomId frame).filter (fun s => p s.frame) = [] := by
  rw [List.filter_eq_nil_iff]
  intro s hs
  rw [broadcast_sends_frame st roomId frame s hs, hp]
  simp

/-! ## Classifier lemmas -/

theorem riskIndex_le_four (r : RiskLevel) : riskIndex r ≤ 4 := by
  cases r <;> decide

theorem riskIndex_critical_of_ge (r : RiskLevel) (h : 4 ≤ riskIndex r) :
    r = RiskLevel.critical := by
  cases r <;> first | rfl | (exfalso; revert h; decide)

/-- A keyword step never changes a `critical` running maximum. -/
theorem kwInner_snd_critical (lm : List Char) (lvl : RiskLevel)
    (acc : List String × RiskLevel) (kw : String)
    (h : acc.2 = RiskLevel.critical) :
    (kwInner lm lvl acc kw).2 = RiskLevel.critical := by
  unfold kwInner
  have hgt : ¬ (riskIndex lvl > riskIndex acc.2) := by
    rw [h]
    have h4 : riskIndex RiskLevel.critical = 4 := by decide
    have hle := riskIndex_le_four lvl
    omega
  split
  · simp [hgt, h]
  · exact h

theorem foldl_kwInner_snd_critical (lm : List Char) (lvl : RiskLevel)
    (kws : List String) (acc : List String × RiskLevel)
    (h : acc.2 = RiskLevel.critical) :
    (kws.foldl (kwInner lm lvl) acc).2 = RiskLevel.critical := by
  induction kws generalizing acc with
  | nil => exact h
  | cons kw rest ih =>
    exact ih _ (kwInner_snd_critical lm lvl acc kw h)

/-- Scanning the `critical` bucket with at least one matching phrase forces
the running maximum to `critical`. -/
theorem foldl_kwInner_critical_hit (lm : List Char) (kws : List String)
    (acc : List String × RiskLevel) (kw : String) (hkw : kw ∈ kws)
    (hc : containsSub kw.toList lm = true) :
    (kws.foldl (kwInner lm RiskLevel.critical) acc).2 = RiskLevel.critical := by
  induction kws generalizing acc with
  | nil => cases hkw
  | cons k rest ih =>
    rcases List.mem_cons.mp hkw with hk | hk
    · subst hk
      have h2 : (kwInner lm RiskLevel.critical acc kw).2 = RiskLevel.critical := by
        unfold kwInner
        rw [if_pos hc]
        by_cases hgt : riskIndex RiskLevel.critical > riskIndex acc.2
        · simp [hgt]
        · have h4 : riskIndex RiskLevel.critical = 4 := by decide
          rw [h4] at hgt
          have hge : 4 ≤ riskIndex acc.2 := by omega
          simp [hgt, h4, riskIndex_critical_of_ge acc.2 hge]
      simp only [List.foldl_cons]
      exact foldl_kwInner_snd_critical lm RiskLevel.critical rest _ h2
    · simp only [List.foldl_cons]
      exact ih _ hk

theorem matchesAt_map_toLower {n h : List Char} (hm : matchesAt n h = true) :
    matchesAt (n.map Char.toLower) (h.map Char.toLower) = true := by
  induction n generalizing h with
  | nil => simp [matchesAt]
  | cons a as ih =>
    cases h with
    | nil => simp [matchesAt] at hm
    | cons b bs =>
      simp only [matchesAt, Bool.and_eq_true, beq_iff_eq] at hm
      simp only [List.map_cons, matchesAt, Bool.and_eq_true, beq_iff_eq]
      exact ⟨by rw [hm.1], ih hm.2⟩

theorem containsSub_map_toLower {n h : List Char} (hc : containsSub n h = true) :
    containsSub (n.map Char.toLower) (h.map Char.toLower) = true := by
  induction h with
  | nil =>
    cases n with
    | nil => simp [containsSub, matchesAt]
    | cons a as => simp [containsSub, matchesAt] at hc
  | cons c rest ih =>
    simp only [containsSub, Bool.or_eq_true] at hc
    simp only [List.map_cons, containsSub, Bool.or_eq_true]
    rcases hc with h1 | h1
    · exact Or.inl (by simpa [List.map_cons] using matchesAt_map_toLower h1)
    · exact Or.inr (ih h1)

/-- A text containing a critical-tier phrase (up to letter case) always gets a
`critical` verdict from the keyword scan. -/
theorem analyzeWithKeywords_critical (s kw : String) (t : List Char)
    (hkw : kw ∈ CRISIS_KEYWORDS RiskLevel.critical)
    (ht : containsSub t s.toList = true)
    (hlow : t.map Char.toLower = kw.toList) :
    (analyzeWithKeywords s).riskLevel = RiskLevel.critical := by
  have hlc : containsSub kw.toList (lowerStr s.toList) = true := by
    have := containsSub_map_toLower ht
    rwa [hlow] at this
  unfold analyzeWithKeywords
  simp only [keywordScanLevels, List.foldl_cons, List.foldl_nil]
  have h1 : (kwStep (lowerStr s.toList) ([], RiskLevel.none) RiskLevel.critical).2
      = RiskLevel.critical :=
    foldl_kwInner_critical_hit _ _ _ kw hkw hlc
  have h2 : ∀ lvl acc, (acc : List String × RiskLevel).2 = RiskLevel.critical →
      (kwStep (lowerStr s.toList) acc lvl).2 = RiskLevel.critical := by
    intro lvl acc h
    exact foldl_kwInner_snd_critical _ lvl _ acc h
  exact h2 _ _ (h2 _ _ (h2 _ _ h1))

/-- The emotion pass can only keep the current level or move to
`high`/`medium`/`low` — never to `critical`. -/
theorem emoStep_fst_cases (acc : RiskLevel × Rat) (e : EmotionScore) :
    (emoStep acc e).1 = acc.1 ∨ (emoStep acc e).1 = RiskLevel.high ∨
    (emoStep acc e).1 = RiskLevel.medium ∨ (emoStep acc e).1 = RiskLevel.low := by
  simp only [emoStep]
  split
  · split <;> split <;> simp
  · split
    · split <;> simp
    · simp

theorem emoStep_fst_le (acc : RiskLevel × Rat) (e : EmotionScore)
    (h : riskIndex acc.1 ≤ 3) : riskIndex (emoStep acc e).1 ≤ 3 := by
  rcases emoStep_fst_cases acc e with h1 | h1 | h1 | h1 <;> rw [h1] <;>
    first | exact h | decide

theorem foldl_emoStep_fst_le (es : List EmotionScore) (acc : RiskLevel × Rat)
    (h : riskIndex acc.1 ≤ 3) : riskIndex (es.foldl emoStep acc).1 ≤ 3 := by
  induction es generalizing acc with
  | nil => exact h
  | cons e rest ih => exact ih _ (emoStep_fst_le acc e h)

/-- The verdict's `isCrisis` flag is exactly "final level differs from
`none`", on every path of `detectCrisis`. -/
theorem detectCrisis_isCrisis_eq (emotions : Option (List EmotionScore))
    (message : String) :
    (detectCrisis emotions message).isCrisis
      = ((detectCrisis emotions message).riskLevel != RiskLevel.none) := by
  cases emotions with
  | none => rfl
  | some es =>
    by_cases h : es.length > 0
    · simp only [detectCrisis, h, if_pos]
    · simp only [detectCrisis, h, if_neg, Bool.false_eq_true, not_false_iff]
      rfl

/-! ## Handler reduction lemmas -/

theorem truthy_eq_true_iff (o : Option String) :
    truthy o = true ↔ ∃ s, o = some s ∧ s ≠ "" := by
  cases o with
  | none => simp [truthy]
  | some s => simp [truthy]

theorem broadcastToRoom_db_irrel (st : ServerState) (d : List StoredMsg)
    (r : String) (f : OutFrame) :
    broadcastToRoom { st with db := d } r f = broadcastToRoom st r f := rfl

theorem getMeta_conns_congr {st1 st2 : ServerState} (h : st1.conns = st2.conns)
    (wsId : Nat) : getMeta st1 wsId = getMeta st2 wsId := by
  unfold getMeta
  rw [h]

theorem markClosed_rooms (st : ServerState) (wsId : Nat) :
    (markClosed st wsId).rooms = st.rooms := rfl

theorem getMeta_markClosed (st : ServerState) (wsId : Nat) :
    getMeta (markClosed st wsId) wsId = { getMeta st wsId with isOpen := false } := by
  unfold markClosed getMeta
  rw [mapGet_mapSet_self]
  rfl

/-- `handleChatMessage` on a bound connection when the insert fails:
a single private error to the sender, state untouched. -/
theorem chatMessage_fail_eq (st : ServerState) (wsId : Nat) (c r u : String)
    (op al : Bool) (nk : Option String) (emotions : Option (List EmotionScore))
    (hm : getMeta st wsId = ⟨op, al, some r, some u, nk⟩)
    (hc : c ≠ "") (hr : r ≠ "") (hu : u ≠ "") :
    handleChatMessage st wsId (some c) emotions true
      = (st, [{ target := wsId, frame := OutFrame.errorMsg "Failed to save message" }]) := by
  unfold handleChatMessage
  rw [hm]
  simp [truthy, hc, hr, hu]

/-- `handleChatMessage` on a bound connection when the insert succeeds:
the row is appended, the chat event fanned out, and the crisis alert sent
privately when warranted. -/
theorem chatMessage_success_eq (st : ServerState) (wsId : Nat) (c r u : String)
    (op al : Bool) (nk : Option String) (emotions : Option (List EmotionScore))
    (hm : getMeta st wsId = ⟨op, al, some r, some u, nk⟩)
    (hc : c ≠ "") (hr : r ≠ "") (hu : u ≠ "") :
    handleChatMessage st wsId (some c) emotions false
      = ({ st with db := st.db ++
            [⟨r, u, nk, c, (detectCrisis emotions c).riskLevel⟩] },
         broadcastToRoom st r
           (OutFrame.chatEvt u (jsOrStr nk nk) c (detectCrisis emotions c).riskLevel)
         ++ (if (detectCrisis emotions c).isCrisis
               && ((detectCrisis emotions c).riskLevel != RiskLevel.none) then
              [{ target := wsId,
                 frame := OutFrame.crisisAlert (detectCrisis emotions c).riskLevel
                   (getCrisisResourcesMessage (detectCrisis emotions c).riskLevel) }]
            else [])) := by
  unfold handleChatMessage
  rw [hm]
  simp [truthy, hc, hr, hu, broadcastToRoom_db_irrel]

theorem mapHas_of_mapGet {α β : Type} [BEq α] {l : List (α × β)} {k : α}
    {v : β} (h : mapGet l k = some v) : mapHas l k = true := by
  induction l with
  | nil => simp [mapGet] at h
  | cons e rest ih =>
    by_cases hk : e.1 == k
    · simp [mapHas, hk]
    · have h2 : mapGet rest k = some v := by simpa [mapGet, hk] using h
      have h3 := ih h2
      simp only [mapHas, List.any_cons] at h3 ⊢
      rw [h3]
      simp

/-- `handleLeave` on a bound connection whose membership exists: the
membership is deleted and the leave event fanned out to the updated room. -/
theorem handleLeave_hit (st : ServerState) (wsId : Nat) (op al : Bool)
    (r u : String) (nk : Option String) (room : RoomMap)
    (hm : getMeta st wsId = ⟨op, al, some r, some u, nk⟩)
    (hr : r ≠ "") (hu : u ≠ "")
    (hroom : mapGet st.rooms r = some room)
    (hhas : mapHas room u = true) :
    handleLeave st wsId
      = ({ st with rooms := mapSet st.rooms r (mapDelete room u) },
         broadcastToRoom { st with rooms := mapSet st.rooms r (mapDelete room u) }
           r (OutFrame.leaveEvt u nk)) := by
  unfold handleLeave
  rw [hm]
  simp [truthy, hr, hu, hroom, hhas]

theorem handleLeave_conns (st : ServerState) (wsId : Nat) :
    (handleLeave st wsId).1.conns = st.conns := by
  simp only [handleLeave]
  split
  · split
    · split <;> rfl
    · rfl
  · rfl

theorem handleLeave_db (st : ServerState) (wsId : Nat) :
    (handleLeave st wsId).1.db = st.db := by
  simp only [handleLeave]
  split
  · split
    · split <;> rfl
    · rfl
  · rfl

theorem handleJoin_falsy (st : ServerState) (wsId : Nat)
    (roomId userId nickname : Option String) (fetchFail : Bool)
    (h : (truthy roomId && truthy userId && truthy nickname) = false) :
    handleJoin st wsId roomId userId nickname fetchFail
      = (st, [{ target := wsId, frame := OutFrame.errorMsg "Missing required fields" }]) := by
  unfold handleJoin
  rw [h]
  rfl

theorem handleJoin_rooms_eq (st : ServerState) (wsId : Nat) (r u n : String)
    (fetchFail : Bool) (hr : r ≠ "") (hu : u ≠ "") (hn : n ≠ "") :
    (handleJoin st wsId (some r) (some u) (some n) fetchFail).1.rooms
      = mapSet st.rooms r
          (mapSet ((mapGet st.rooms r).getD []) u ⟨wsId, u, n⟩) := by
  unfold handleJoin
  simp [truthy, hr, hu, hn]

theorem handleJoin_conns_eq (st : ServerState) (wsId : Nat) (r u n : String)
    (fetchFail : Bool) (hr : r ≠ "") (hu : u ≠ "") (hn : n ≠ "") :
    (handleJoin st wsId (some r) (some u) (some n) fetchFail).1.conns
      = mapSet st.conns wsId
          { getMeta st wsId with
            roomId := some r, userId := some u, nickname := some n } := by
  unfold handleJoin
  simp [truthy, hr, hu, hn]

theorem handleJoin_db_eq (st : ServerState) (wsId : Nat) (r u n : String)
    (fetchFail : Bool) (hr : r ≠ "") (hu : u ≠ "") (hn : n ≠ "") :
    (handleJoin st wsId (some r) (some u) (some n) fetchFail).1.db = st.db := by
  unfold handleJoin
  simp [truthy, hr, hu, hn]

theorem handleJoin_sends_eq (st : ServerState) (wsId : Nat) (r u n : String)
    (fetchFail : Bool) (hr : r ≠ "") (hu : u ≠ "") (hn : n ≠ "") :
    (handleJoin st wsId (some r) (some u) (some n) fetchFail).2
      = (if fetchFail then
           { target := wsId, frame := OutFrame.errorMsg "Could not load message history" }
         else
           { target := wsId, frame := OutFrame.history
               (((st.db.filter (fun msg => msg.room_id == r)).reverse.take 50).reverse) })
        :: broadcastToRoom (handleJoin st wsId (some r) (some u) (some n) fetchFail).1 r
             (OutFrame.joinEvt u n) := by
  unfold handleJoin
  simp [truthy, hr, hu, hn]

/-- `handleDisconnect` when the stored membership belongs to the closing
socket: the membership is deleted and nothing else changes. -/
theorem handleDisconnect_hit (st : ServerState) (wsId : Nat) (op al : Bool)
    (r u : String) (nk : Option String) (room : RoomMap) (member : RoomMember)
    (hm : getMeta st wsId = ⟨op, al, some r, some u, nk⟩)
    (hr : r ≠ "") (hu : u ≠ "")
    (hroom : mapGet st.rooms r = some room)
    (hmem : mapGet room u = some member)
    (hws : member.wsId = wsId) :
    handleDisconnect st wsId
      = { st with rooms := mapSet st.rooms r (mapDelete room u) } := by
  unfold handleDisconnect
  rw [hm]
  simp [truthy, hr, hu, hroom, hmem, hws]

/-- `handleDisconnect` when the stored membership belongs to a different
(newer) socket: the whole state is untouched. -/
theorem handleDisconnect_stale (st : ServerState) (wsId : Nat) (op al : Bool)
    (r u : String) (nk : Option String) (room : RoomMap) (member : RoomMember)
    (hm : getMeta st wsId = ⟨op, al, some r, some u, nk⟩)
    (hr : r ≠ "") (hu : u ≠ "")
    (hroom : mapGet st.rooms r = some room)
    (hmem : mapGet room u = some member)
    (hws : member.wsId ≠ wsId) :
    handleDisconnect st wsId = st := by
  unfold handleDisconnect
  rw [hm]
  simp [truthy, hr, hu, hroom, hmem, hws]

/-! ## Claims -/

/-- C1: on a bound connection with non-missing content, the chat event is
broadcast iff persisting the message succeeded.  A persistence failure
yields exactly one private error frame to the sender, no state change and
no chat frame anywhere; success appends the row to storage and fans the
chat event out to the room, every other frame sent being private to the
sender. -/
theorem C1_chat_broadcast_iff_persisted (st : ServerState) (wsId : Nat)
    (c r u : String) (op al : Bool) (nk : Option String)
    (emotions : Option (List EmotionScore)) (dbFail : Bool)
    (hm : getMeta st wsId = ⟨op, al, some r, some u, nk⟩)
    (hc : c ≠ "") (hr : r ≠ "") (hu : u ≠ "") :
    (dbFail = true →
      handleChatMessage st wsId (some c) emotions dbFail
        = (st, [{ target := wsId, frame := OutFrame.errorMsg "Failed to save message" }])) ∧
    (dbFail = false →
      (handleChatMessage st wsId (some c) emotions dbFail).1.db
        = st.db ++ [⟨r, u, nk, c, (detectCrisis emotions c).riskLevel⟩] ∧
      (handleChatMessage st wsId (some c) emotions dbFail).2.filter
          (fun s => isChatFrame s.frame)
        = broadcastToRoom st r
            (OutFrame.chatEvt u (jsOrStr nk nk) c (detectCrisis emotions c).riskLevel) ∧
      ∀ s ∈ (handleChatMessage st wsId (some c) emotions dbFail).2,
        isChatFrame s.frame = false → s.target = wsId) := by
  constructor
  · intro hdb
    subst hdb
    exact chatMessage_fail_eq st wsId c r u op al nk emotions hm hc hr hu
  · intro hdb
    subst hdb
    rw [chatMessage_success_eq st wsId c r u op al nk emotions hm hc hr hu]
    refine ⟨rfl, ?_, ?_⟩
    · rw [List.filter_append,
        filter_broadcast_all st r
          (OutFrame.chatEvt u (jsOrStr nk nk) c (detectCrisis emotions c).riskLevel)
          (fun f => isChatFrame f) rfl]
      split
      · simp [isChatFrame]
      · simp
    · intro s hs hframe
      rcases List.mem_append.mp hs with h1 | h1
      · rw [broadcast_sends_frame st r _ s h1] at hframe
        simp [isChatFrame] at hframe
      · revert h1
        split
        · intro h1
          rw [List.mem_singleton.mp h1]
        · intro h1
          simp at h1

/-- C1 witness: on `stPair`, a failed insert of "hello" from socket 1 yields
exactly one private error and no state change. -/
theorem C1_chat_broadcast_iff_persisted_witness :
    handleChatMessage stPair 1 (some "hello") Option.none true
      = (stPair, [{ target := 1, frame := OutFrame.errorMsg "Failed to save message" }]) :=
  (C1_chat_broadcast_iff_persisted stPair 1 "hello" "r" "u" true true
    (some "alice") Option.none true rfl (by decide) (by decide) (by decide)).1 rfl

/-- C2 counterexample: on `stPair`, socket 1 is bound to `("r","u")` and
holds the current membership, yet its close path broadcasts nothing — zero
leave events, not the exactly one event the claim requires; the
heartbeat-forced termination (socket 1 dead in `stPairDead`) is equally
silent. -/
theorem C2_close_no_leave_cex :
    (getMeta stPair 1).roomId = some "r" ∧
    (getMeta stPair 1).userId = some "u" ∧
    mapGet ((mapGet stPair.rooms "r").getD []) "u" = some ⟨1, "u", "alice"⟩ ∧
    (closeConn stPair 1).2.countP (fun s => isLeaveFrame s.frame) = 0 ∧
    (heartbeatProbe stPairDead 1).2.countP (fun s => isLeaveFrame s.frame) = 0 := by
  decide

/-- C2 (amended): closing a bound connection — client-initiated, or
heartbeat-forced, which runs the very same cleanup — removes its membership
via the identity-guarded delete but broadcasts NO leave event: nothing is
sent at all on the close path.  Unbound connections likewise close silently
with the registry untouched. -/
theorem C2_close_silent_removal (st : ServerState) (wsId : Nat) (op al : Bool)
    (r u : String) (nk : Option String) (room : RoomMap) (member : RoomMember)
    (hm : getMeta st wsId = ⟨op, al, some r, some u, nk⟩)
    (hr : r ≠ "") (hu : u ≠ "")
    (hroom : mapGet st.rooms r = some room)
    (hmem : mapGet room u = some member)
    (hws : member.wsId = wsId) :
    (∃ room2, mapGet (closeConn st wsId).1.rooms r = some room2 ∧
       mapGet room2 u = Option.none) ∧
    (closeConn st wsId).2 = [] ∧
    (al = false → heartbeatProbe st wsId = closeConn st wsId) ∧
    (∀ st2 w2, (getMeta st2 w2).roomId = Option.none →
       (closeConn st2 w2).1.rooms = st2.rooms ∧ (closeConn st2 w2).2 = []) := by
  have hm2 : getMeta (markClosed st wsId) wsId = ⟨false, al, some r, some u, nk⟩ := by
    rw [getMeta_markClosed, hm]
  have hroom2 : mapGet (markClosed st wsId).rooms r = some room := by
    rw [markClosed_rooms]; exact hroom
  have hdis := handleDisconnect_hit (markClosed st wsId) wsId false al r u nk
    room member hm2 hr hu hroom2 hmem hws
  refine ⟨?_, rfl, ?_, ?_⟩
  · refine ⟨mapDelete room u, ?_, mapGet_mapDelete_self room u⟩
    show mapGet (handleDisconnect (markClosed st wsId) wsId).rooms r = _
    rw [hdis]
    show mapGet (mapSet (markClosed st wsId).rooms r (mapDelete room u)) r = _
    rw [mapGet_mapSet_self]
  · intro hal
    unfold heartbeatProbe
    rw [hm]
    subst hal
    rfl
  · intro st2 w2 h2
    constructor
    · show (handleDisconnect (markClosed st2 w2) w2).rooms = st2.rooms
      unfold handleDisconnect
      have hro : (getMeta (markClosed st2 w2) w2).roomId = Option.none := by
        rw [getMeta_markClosed]
        exact h2
      simp [hro, truthy, markClosed_rooms]
    · rfl

/-- C2 witness: heartbeat-dead socket 1 of `stPairDead` is cleaned up with
its membership gone and not a single frame sent. -/
theorem C2_close_silent_removal_witness :
    (∃ room2, mapGet (closeConn stPairDead 1).1.rooms "r" = some room2 ∧
       mapGet room2 "u" = Option.none) ∧
    (closeConn stPairDead 1).2 = [] ∧
    heartbeatProbe stPairDead 1 = closeConn stPairDead 1 := by
  have h := C2_close_silent_removal stPairDead 1 true false "r" "u" (some "alice")
    [("u", ⟨1, "u", "alice"⟩), ("v", ⟨2, "v", "bob"⟩)] ⟨1, "u", "alice"⟩
    rfl (by decide) (by decide) rfl rfl rfl
  exact ⟨h.1, h.2.1, h.2.2.1 rfl⟩

/-- C3 counterexample: the keyword "depressed" yields final risk `low`,
`isCrisis = true`, and the handler DOES send a private `crisis_alert` for
it — contradicting "low never triggers this reply". -/
theorem C3_low_alert_cex :
    (detectCrisis Option.none "depressed").riskLevel = RiskLevel.low ∧
    (detectCrisis Option.none "depressed").isCrisis = true ∧
    (handleChatMessage stPair 1 (some "depressed") Option.none false).2.countP
      (fun s => isAlertFrame s.frame) = 1 := by
  decide

/-- C3 (amended): the private crisis_alert reply is sent iff the verdict's
`isCrisis` is true, and `isCrisis` holds exactly when the final level is not
`none` — so `low` DOES trigger the reply, carrying the general-support tier
text; `critical`/`high` get the urgent tier and `medium` the supportive
tier.  The alert is always addressed to the sender only. -/
theorem C3_alert_iff_crisis (st : ServerState) (wsId : Nat)
    (c r u : String) (op al : Bool) (nk : Option String)
    (emotions : Option (List EmotionScore))
    (hm : getMeta st wsId = ⟨op, al, some r, some u, nk⟩)
    (hc : c ≠ "") (hr : r ≠ "") (hu : u ≠ "") :
    (detectCrisis emotions c).isCrisis
      = ((detectCrisis emotions c).riskLevel != RiskLevel.none) ∧
    (handleChatMessage st wsId (some c) emotions false).2.filter
        (fun s => isAlertFrame s.frame)
      = (if (detectCrisis emotions c).riskLevel = RiskLevel.none then []
         else [{ target := wsId,
                 frame := OutFrame.crisisAlert (detectCrisis emotions c).riskLevel
                   (getCrisisResourcesMessage (detectCrisis emotions c).riskLevel) }]) ∧
    getCrisisResourcesMessage RiskLevel.critical = urgentTierMessage ∧
    getCrisisResourcesMessage RiskLevel.high = urgentTierMessage ∧
    getCrisisResourcesMessage RiskLevel.medium = supportiveTierMessage ∧
    getCrisisResourcesMessage RiskLevel.low = generalTierMessage := by
  refine ⟨detectCrisis_isCrisis_eq emotions c, ?_, ?_, ?_, ?_, ?_⟩
  · rw [chatMessage_success_eq st wsId c r u op al nk emotions hm hc hr hu,
      List.filter_append,
      filter_broadcast_none st r
        (OutFrame.chatEvt u (jsOrStr nk nk) c (detectCrisis emotions c).riskLevel)
        (fun f => isAlertFrame f) rfl,
      List.nil_append, detectCrisis_isCrisis_eq emotions c]
    by_cases hl : (detectCrisis emotions c).riskLevel = RiskLevel.none
    · simp [hl]
    · have : ((detectCrisis emotions c).riskLevel != RiskLevel.none) = true :=
        bne_iff_ne.mpr hl
      simp [this, hl, isAlertFrame]
  · simp [getCrisisResourcesMessage]
  · simp [getCrisisResourcesMessage]
  · simp [getCrisisResourcesMessage]
  · simp [getCrisisResourcesMessage]

/-- C3 witness: "depressed" from socket 1 on `stPair` triggers exactly the
general-tier alert, and the tier table is as stated. -/
theorem C3_alert_iff_crisis_witness :
    (handleChatMessage stPair 1 (some "depressed") Option.none false).2.filter
        (fun s => isAlertFrame s.frame)
      = (if (detectCrisis Option.none "depressed").riskLevel = RiskLevel.none then []
         else [{ target := 1,
                 frame := OutFrame.crisisAlert (detectCrisis Option.none "depressed").riskLevel
                   (getCrisisResourcesMessage (detectCrisis Option.none "depressed").riskLevel) }]) ∧
    getCrisisResourcesMessage RiskLevel.low = generalTierMessage := by
  have h := C3_alert_iff_crisis stPair 1 "depressed" "r" "u" true true
    (some "alice") Option.none rfl (by decide) (by decide) (by decide)
  exact ⟨h.2.1, h.2.2.2.2.2⟩

/-- C4: a text containing any critical-tier phrase — in any letter case —
receives a `critical` final verdict, both in the keyword-only fallback path
and whenever an external semantic signal was obtained. -/
theorem C4_critical_phrase_forces_critical (s kw : String) (t : List Char)
    (hkw : kw ∈ CRISIS_KEYWORDS RiskLevel.critical)
    (ht : containsSub t s.toList = true)
    (hlow : t.map Char.toLower = kw.toList) :
    (analyzeWithKeywords s).riskLevel = RiskLevel.critical ∧
    ∀ emotions, (detectCrisis emotions s).riskLevel = RiskLevel.critical := by
  have hkwcrit := analyzeWithKeywords_critical s kw t hkw ht hlow
  refine ⟨hkwcrit, ?_⟩
  intro emotions
  cases emotions with
  | none => exact hkwcrit
  | some es =>
    cases es with
    | nil => simpa [detectCrisis] using hkwcrit
    | cons e rest =>
      have hlen : (e :: rest).length > 0 := by simp
      simp only [detectCrisis, hlen, if_pos]
      have hai : riskIndex ((e :: rest).foldl emoStep (RiskLevel.none, 0)).1 ≤ 3 :=
        foldl_emoStep_fst_le _ _ (by decide)
      have hgt : riskIndex (analyzeWithKeywords s).riskLevel >
          riskIndex ((e :: rest).foldl emoStep (RiskLevel.none, 0)).1 := by
        rw [hkwcrit]
        have h4 : riskIndex RiskLevel.critical = 4 := by decide
        omega
      simp only [List.foldl_cons] at hai
      simp [hgt, hkwcrit]
      intro hcontra
      exfalso
      have h4 : riskIndex RiskLevel.critical = 4 := by decide
      rw [h4] at hcontra
      omega

/-- C4 witness: "I WANT TO DIE" is `critical` both keyword-only and when a
strong `sadness` signal is present. -/
theorem C4_critical_phrase_forces_critical_witness :
    (analyzeWithKeywords "I WANT TO DIE").riskLevel = RiskLevel.critical ∧
    (detectCrisis (some [⟨"sadness", (9 : Rat)/10⟩]) "I WANT TO DIE").riskLevel
      = RiskLevel.critical := by
  have h := C4_critical_phrase_forces_critical "I WANT TO DIE" "want to die"
    "WANT TO DIE".toList (by decide) (by decide) (by decide)
  exact ⟨h.1, h.2 (some [⟨"sadness", (9 : Rat)/10⟩])⟩

/-- C5: the classifier is total and falls back to the keyword-only analysis
whenever the external emotion call yields nothing — missing token, thrown
fetch error, non-OK status, empty body array, or an empty first row. -/
theorem C5_classify_fallback_total (message : String) (outcome : HFOutcome)
    (h : outcome = HFOutcome.noToken ∨ outcome = HFOutcome.fetchError ∨
         outcome = HFOutcome.badStatus ∨ outcome = HFOutcome.jsonResult [] ∨
         ∃ rest, outcome = HFOutcome.jsonResult ([] :: rest)) :
    detectCrisisFull outcome message = analyzeWithKeywords message := by
  rcases h with h | h | h | h | ⟨rest, h⟩ <;> subst h <;>
    simp [detectCrisisFull, analyzeWithHuggingFace, detectCrisis]

/-- C5 witness: a non-OK HTTP status degrades to the keyword analysis. -/
theorem C5_classify_fallback_total_witness :
    detectCrisisFull HFOutcome.badStatus "hello" = analyzeWithKeywords "hello" :=
  C5_classify_fallback_total "hello" HFOutcome.badStatus
    (Or.inr (Or.inr (Or.inl rfl)))

/-- C6: every join preserves the at-most-one-membership-per-(roomId, userId)
invariant, and after any join for `(r, u)` — in particular the second of two
joins with the same identity — the room holds exactly one membership for
`u`, bound to that join's socket and nickname. -/
theorem C6_join_unique_membership (st : ServerState) (wsId : Nat)
    (roomId userId nickname : Option String) (fetchFail : Bool)
    (hinv : roomsInv st.rooms) :
    roomsInv (handleJoin st wsId roomId userId nickname fetchFail).1.rooms ∧
    (∀ r u n, roomId = some r → userId = some u → nickname = some n →
      r ≠ "" → u ≠ "" → n ≠ "" →
      ∃ room,
        mapGet (handleJoin st wsId roomId userId nickname fetchFail).1.rooms r
          = some room ∧
        mapGet room u = some ⟨wsId, u, n⟩ ∧
        room.countP (fun e => e.1 == u) = 1) := by
  by_cases hcond : (truthy roomId && truthy userId && truthy nickname) = true
  · obtain ⟨⟨hro, hus⟩, hni⟩ :
        (truthy roomId = true ∧ truthy userId = true) ∧ truthy nickname = true := by
      simpa [Bool.and_eq_true] using hcond
    obtain ⟨r, hr_eq, hr⟩ := (truthy_eq_true_iff roomId).mp hro
    obtain ⟨u, hu_eq, hu⟩ := (truthy_eq_true_iff userId).mp hus
    obtain ⟨n, hn_eq, hn⟩ := (truthy_eq_true_iff nickname).mp hni
    subst hr_eq
    subst hu_eq
    subst hn_eq
    have hrooms := handleJoin_rooms_eq st wsId r u n fetchFail hr hu hn
    have hroom0 : (((mapGet st.rooms r).getD []).map Prod.fst).Nodup := by
      cases hg : mapGet st.rooms r with
      | none => simp
      | some room2 =>
        obtain ⟨e, he, he2⟩ := mapGet_eq_some_mem hg
        simpa [he2] using hinv.2 e he
    constructor
    · rw [hrooms]
      refine ⟨nodup_keys_mapSet _ _ _ hinv.1, ?_⟩
      intro p hp
      rcases mem_mapSet hp with hp1 | hp1
      · rw [hp1]
        exact nodup_keys_mapSet _ _ _ hroom0
      · exact hinv.2 p hp1
    · intro r2 u2 n2 hr2 hu2 hn2 _ _ _
      injection hr2 with h1
      injection hu2 with h2
      injection hn2 with h3
      subst h1
      subst h2
      subst h3
      refine ⟨mapSet ((mapGet st.rooms r).getD []) u ⟨wsId, u, n⟩, ?_, ?_, ?_⟩
      · rw [hrooms]
        exact mapGet_mapSet_self st.rooms r _
      · exact mapGet_mapSet_self _ u _
      · exact countP_key_mapSet_one _ u _ hroom0
  · have hF : (truthy roomId && truthy userId && truthy nickname) = false := by
      revert hcond
      cases truthy roomId && truthy userId && truthy nickname <;> simp
    rw [handleJoin_falsy st wsId roomId userId nickname fetchFail hF]
    refine ⟨hinv, ?_⟩
    intro r u n hre hue hne hr hu hn
    exfalso
    apply hcond
    subst hre
    subst hue
    subst hne
    simp [truthy, hr, hu, hn]

/-- C6 witness: joining `("r","u")` from socket 1 as "alice", then again
from socket 2 as "bob", leaves exactly one membership bound to socket 2 and
"bob". -/
theorem C6_join_unique_membership_witness :
    ∃ room,
      mapGet (handleJoin
          (handleJoin stOne 1 (some "r") (some "u") (some "alice") false).1
          2 (some "r") (some "u") (some "bob") false).1.rooms "r" = some room ∧
      mapGet room "u" = some ⟨2, "u", "bob"⟩ ∧
      room.countP (fun e => e.1 == "u") = 1 := by
  have h1 := C6_join_unique_membership stOne 1 (some "r") (some "u")
    (some "alice") false (by decide)
  have h2 := C6_join_unique_membership
    (handleJoin stOne 1 (some "r") (some "u") (some "alice") false).1
    2 (some "r") (some "u") (some "bob") false h1.1
  exact h2.2 "r" "u" "bob" rfl rfl rfl (by decide) (by decide) (by decide)

/-- C7: a close event from a connection whose `(roomId, userId)` membership
is currently held by a different (newer) socket leaves the registry
unchanged — the identity-guarded removal deletes the entry only when the
stored socket is the closing one — and sends nothing. -/
theorem C7_stale_close_no_evict (st : ServerState) (wsId : Nat) (op al : Bool)
    (r u : String) (nk : Option String) (room : RoomMap) (member : RoomMember)
    (hm : getMeta st wsId = ⟨op, al, some r, some u, nk⟩)
    (hr : r ≠ "") (hu : u ≠ "")
    (hroom : mapGet st.rooms r = some room)
    (hmem : mapGet room u = some member)
    (hws : member.wsId ≠ wsId) :
    (closeConn st wsId).1.rooms = st.rooms ∧ (closeConn st wsId).2 = [] := by
  have hm2 : getMeta (markClosed st wsId) wsId = ⟨false, al, some r, some u, nk⟩ := by
    rw [getMeta_markClosed, hm]
  have hroom2 : mapGet (markClosed st wsId).rooms r = some room := by
    rw [markClosed_rooms]
    exact hroom
  have h := handleDisconnect_stale (markClosed st wsId) wsId false al r u nk
    room member hm2 hr hu hroom2 hmem hws
  constructor
  · show (handleDisconnect (markClosed st wsId) wsId).rooms = st.rooms
    rw [h, markClosed_rooms]
  · rfl

/-- C7 witness: on `stStale`, the delayed close of stale socket 1 does not
evict socket 2's membership for `("r","u")`. -/
theorem C7_stale_close_no_evict_witness :
    (closeConn stStale 1).1.rooms = stStale.rooms ∧ (closeConn stStale 1).2 = [] :=
  C7_stale_close_no_evict stStale 1 true true "r" "u" (some "alice")
    [("u", ⟨2, "u", "alice"⟩)] ⟨2, "u", "alice"⟩ rfl (by decide) (by decide)
    rfl rfl (by decide)

/-- C8 counterexample: when the history fetch fails, the joiner receives
only the error notice — there is NO `history` frame at all, so no "empty
history" reply as claimed (the join itself still succeeds: one join event
is fanned out). -/
theorem C8_no_empty_history_cex :
    (handleJoin stOne 1 (some "r") (some "u") (some "alice") true).2.head?
      = some { target := 1, frame := OutFrame.errorMsg "Could not load message history" } ∧
    (handleJoin stOne 1 (some "r") (some "u") (some "alice") true).2.countP
      (fun s => isHistoryFrame s.frame) = 0 ∧
    (handleJoin stOne 1 (some "r") (some "u") (some "alice") true).2.countP
      (fun s => isJoinFrame s.frame) = 1 := by
  decide

/-- C8 (amended): a valid join always creates the membership and broadcasts
the join event.  On a successful fetch the joiner privately receives the
room's most recent ≤50 persisted messages ordered oldest-to-newest (a
suffix of the room's chronological history, of length `min 50 total`).  On
a failed fetch the joiner receives only a non-fatal error notice and no
history frame, and the join still succeeds. -/
theorem C8_join_history_or_degrade (st : ServerState) (wsId : Nat)
    (r u n : String) (fetchFail : Bool)
    (hr : r ≠ "") (hu : u ≠ "") (hn : n ≠ "") :
    (∃ room,
        mapGet (handleJoin st wsId (some r) (some u) (some n) fetchFail).1.rooms r
          = some room ∧ mapGet room u = some ⟨wsId, u, n⟩) ∧
    (handleJoin st wsId (some r) (some u) (some n) fetchFail).2.tail
      = broadcastToRoom (handleJoin st wsId (some r) (some u) (some n) fetchFail).1 r
          (OutFrame.joinEvt u n) ∧
    (fetchFail = false →
      (handleJoin st wsId (some r) (some u) (some n) fetchFail).2.head?
        = some { target := wsId,
                 frame := OutFrame.history
                   (((st.db.filter (fun msg => msg.room_id == r)).reverse.take 50).reverse) } ∧
      (∃ pre, pre ++ ((st.db.filter (fun msg => msg.room_id == r)).reverse.take 50).reverse
          = st.db.filter (fun msg => msg.room_id == r)) ∧
      (((st.db.filter (fun msg => msg.room_id == r)).reverse.take 50).reverse).length
        = min 50 (st.db.filter (fun msg => msg.room_id == r)).length) ∧
    (fetchFail = true →
      (handleJoin st wsId (some r) (some u) (some n) fetchFail).2.head?
        = some { target := wsId,
                 frame := OutFrame.errorMsg "Could not load message history" } ∧
      (handleJoin st wsId (some r) (some u) (some n) fetchFail).2.countP
        (fun s => isHistoryFrame s.frame) = 0) := by
  refine ⟨?_, ?_, ?_, ?_⟩
  · rw [handleJoin_rooms_eq st wsId r u n fetchFail hr hu hn]
    exact ⟨mapSet ((mapGet st.rooms r).getD []) u ⟨wsId, u, n⟩,
      mapGet_mapSet_self st.rooms r _, mapGet_mapSet_self _ u _⟩
  · rw [handleJoin_sends_eq st wsId r u n fetchFail hr hu hn]
    rfl
  · intro hf
    subst hf
    refine ⟨?_, ?_, ?_⟩
    · rw [handleJoin_sends_eq st wsId r u n false hr hu hn]
      rfl
    · refine ⟨((st.db.filter (fun msg => msg.room_id == r)).reverse.drop 50).reverse, ?_⟩
      rw [← List.reverse_append, List.take_append_drop, List.reverse_reverse]
    · simp
  · intro hf
    subst hf
    constructor
    · rw [handleJoin_sends_eq st wsId r u n true hr hu hn]
      rfl
    · rw [handleJoin_sends_eq st wsId r u n true hr hu hn]
      rw [List.countP_cons]
      rw [countP_broadcast_zero _ r (OutFrame.joinEvt u n)
        (fun f => isHistoryFrame f) rfl]
      simp [isHistoryFrame]

/-- C8 witness: joining room "r" on `stDb` with a working fetch delivers the
two persisted "r" messages oldest-to-newest as the private history reply. -/
theorem C8_join_history_or_degrade_witness :
    (handleJoin stDb 1 (some "r") (some "u") (some "alice") false).2.head?
      = some { target := 1,
               frame := OutFrame.history
                 (((stDb.db.filter (fun msg => msg.room_id == "r")).reverse.take 50).reverse) } ∧
    (∃ pre, pre ++ ((stDb.db.filter (fun msg => msg.room_id == "r")).reverse.take 50).reverse
        = stDb.db.filter (fun msg => msg.room_id == "r")) := by
  have h := C8_join_history_or_degrade stDb 1 "r" "u" "alice" false
    (by decide) (by decide) (by decide)
  exact ⟨(h.2.2.1 rfl).1, (h.2.2.1 rfl).2.1⟩

/-- C9 counterexample: socket 1 joins room "A" and then rebinds to room "B"
by a second join frame; its membership in "A" is never removed, so a
broadcast to "A" still delivers to socket 1 although it is bound to "B". -/
theorem C9_cross_room_delivery_cex :
    (getMeta stCross 1).roomId = some "B" ∧
    (broadcastToRoom stCross "A"
        (OutFrame.chatEvt "x" Option.none "hi" RiskLevel.none)).any
      (fun s => s.target == 1) = true := by
  decide

/-- C9 (amended): every send of a broadcast to room `R` carries the
broadcast frame and goes to a currently registered member of `R` whose
transport is open — closed members are skipped and connections not
registered in `R` receive nothing.  (The original claim's stronger
"no connection bound to a different room ever receives the event" fails,
because a membership can outlive a rebind; see the counterexample.) -/
theorem C9_broadcast_open_members_only (st : ServerState) (roomId : String)
    (frame : OutFrame) (s : Send) (hs : s ∈ broadcastToRoom st roomId frame) :
    s.frame = frame ∧ connIsOpen st s.target = true ∧
    ∃ room, mapGet st.rooms roomId = some room ∧
      ∃ e ∈ room, e.2.wsId = s.target := by
  unfold broadcastToRoom at hs
  cases hm : mapGet st.rooms roomId with
  | none =>
    rw [hm] at hs
    simp at hs
  | some room =>
    rw [hm] at hs
    obtain ⟨e, he, hei⟩ := List.mem_filterMap.mp hs
    by_cases ho : connIsOpen st e.2.wsId = true
    · rw [if_pos ho] at hei
      injection hei with hei
      subst hei
      exact ⟨rfl, ho, room, rfl, e, he, rfl⟩
    · rw [if_neg ho] at hei
      cases hei

/-- C9 witness: the broadcast of a leave event to room "r" of `stPair`
reaches socket 1 exactly as an open, registered member of "r". -/
theorem C9_broadcast_open_members_only_witness :
    (Send.mk 1 (OutFrame.leaveEvt "z" Option.none)).frame
        = OutFrame.leaveEvt "z" Option.none ∧
    connIsOpen stPair 1 = true ∧
    ∃ room, mapGet stPair.rooms "r" = some room ∧
      ∃ e ∈ room, e.2.wsId = (Send.mk 1 (OutFrame.leaveEvt "z" Option.none)).target :=
  C9_broadcast_open_members_only stPair "r" (OutFrame.leaveEvt "z" Option.none)
    (Send.mk 1 (OutFrame.leaveEvt "z" Option.none)) (by decide)

/-- C10: processing an explicit leave frame removes the membership and
broadcasts a leave event to the room, but never clears the connection's
stored `(roomId, userId, nickname)` binding — so a subsequent chat frame
with non-missing content on the same connection is still classified,
persisted, and its chat event broadcast to the remaining members of the
room that was left. -/
theorem C10_chat_after_leave_still_broadcast (st : ServerState) (wsId : Nat)
    (c r u : String) (op al : Bool) (nk : Option String) (room : RoomMap)
    (member : RoomMember) (emotions : Option (List EmotionScore))
    (hm : getMeta st wsId = ⟨op, al, some r, some u, nk⟩)
    (hc : c ≠ "") (hr : r ≠ "") (hu : u ≠ "")
    (hroom : mapGet st.rooms r = some room)
    (hmem : mapGet room u = some member) :
    (∃ room2, mapGet (handleLeave st wsId).1.rooms r = some room2 ∧
       mapGet room2 u = Option.none) ∧
    (handleLeave st wsId).2
      = broadcastToRoom (handleLeave st wsId).1 r (OutFrame.leaveEvt u nk) ∧
    getMeta (handleLeave st wsId).1 wsId = getMeta st wsId ∧
    ((handleChatMessage (handleLeave st wsId).1 wsId (some c) emotions false).1.db
      = st.db ++ [⟨r, u, nk, c, (detectCrisis emotions c).riskLevel⟩]) ∧
    ((handleChatMessage (handleLeave st wsId).1 wsId (some c) emotions false).2.filter
        (fun s => isChatFrame s.frame)
      = broadcastToRoom (handleLeave st wsId).1 r
          (OutFrame.chatEvt u (jsOrStr nk nk) c (detectCrisis emotions c).riskLevel)) := by
  have hleave := handleLeave_hit st wsId op al r u nk room hm hr hu hroom
    (mapHas_of_mapGet hmem)
  have hcm : getMeta (handleLeave st wsId).1 wsId = getMeta st wsId :=
    getMeta_conns_congr (handleLeave_conns st wsId) wsId
  have hm1 : getMeta (handleLeave st wsId).1 wsId = ⟨op, al, some r, some u, nk⟩ := by
    rw [hcm, hm]
  refine ⟨?_, ?_, hcm, ?_, ?_⟩
  · refine ⟨mapDelete room u, ?_, mapGet_mapDelete_self room u⟩
    rw [hleave]
    exact mapGet_mapSet_self st.rooms r _
  · rw [hleave]
  · rw [chatMessage_success_eq _ wsId c r u op al nk emotions hm1 hc hr hu]
    show (handleLeave st wsId).1.db ++ _ = _
    rw [handleLeave_db]
  · rw [chatMessage_success_eq _ wsId c r u op al nk emotions hm1 hc hr hu]
    rw [List.filter_append,
      filter_broadcast_all _ r
        (OutFrame.chatEvt u (jsOrStr nk nk) c (detectCrisis emotions c).riskLevel)
        (fun f => isChatFrame f) rfl]
    split
    · simp [isChatFrame]
    · simp

/-- C10 witness: on `stPair`, `u` leaving room "r" deletes its membership
and broadcasts the leave event, yet a further chat from socket 1 is still
persisted and broadcast to the remaining member. -/
theorem C10_chat_after_leave_still_broadcast_witness :
    (∃ room2, mapGet (handleLeave stPair 1).1.rooms "r" = some room2 ∧
       mapGet room2 "u" = Option.none) ∧
    (handleLeave stPair 1).2
      = broadcastToRoom (handleLeave stPair 1).1 "r"
          (OutFrame.leaveEvt "u" (some "alice")) ∧
    getMeta (handleLeave stPair 1).1 1 = getMeta stPair 1 ∧
    (handleChatMessage (handleLeave stPair 1).1 1 (some "hi") Option.none false).2.filter
        (fun s => isChatFrame s.frame)
      = broadcastToRoom (handleLeave stPair 1).1 "r"
          (OutFrame.chatEvt "u" (jsOrStr (some "alice") (some "alice")) "hi"
            (detectCrisis Option.none "hi").riskLevel) := by
  have h := C10_chat_after_leave_still_broadcast stPair 1 "hi" "r" "u" true true
    (some "alice") [("u", ⟨1, "u", "alice"⟩), ("v", ⟨2, "v", "bob"⟩)]
    ⟨1, "u", "alice"⟩ Option.none rfl (by decide) (by decide) (by decide) rfl rfl
  exact ⟨h.1, h.2.1, h.2.2.1, h.2.2.2.2⟩

end OMW
